import Mathlib

/-!
# Verification of the RealTalk audio/VAD/translation core

Shallow embedding of the numeric and state-machine logic of
`src/speech_recognition/speech_recognizer.py` and `src/translation/translator.py`,
with theorems settling the frozen claims about them.

Modelling conventions:
* Python floats are modelled as exact rationals (`ℚ`); NumPy `int16` arrays as
  `List ℚ` before re-quantization and `List Int` after.
* Python strings are modelled as `List Char` (a Python `str` is a sequence of
  code points); `str.strip()` strips Python's full whitespace set (`pyIsSpace`).
* Fallible operations (a Python exception such as `ZeroDivisionError`) are
  modelled with `Option`: `none` is the raised exception.
* The external Marian translation models are abstract functions
  `List Char → List Char` supplied as parameters.
-/

/- The Batteries rational-number arithmetic is `@[irreducible]`, which blocks
`decide` from evaluating concrete rational computations.  The results proved
here only need the definitional behaviour, so we restore default
reducibility for those operations. -/
set_option allowUnsafeReducibility true in
attribute [semireducible] Rat.add Rat.mul Rat.inv Rat.sub Rat.neg Rat.div

/-! ## Translator (`src/translation/translator.py`) -/

/-- Python's whitespace predicate (CPython `Py_UNICODE_ISSPACE`, the set
`str.strip()` and `str.isspace()` use): `\t \n \x0b \x0c \r` (0x09-0x0D),
the control characters 0x1C-0x1F, space, NEL (0x85), NBSP (0xA0), Ogham
space mark (0x1680), the typographic spaces U+2000-U+200A, line and
paragraph separators (U+2028, U+2029), narrow no-break space (U+202F),
medium mathematical space (U+205F) and ideographic space (U+3000). -/
def pyIsSpace (c : Char) : Bool :=
  (9 ≤ c.toNat && c.toNat ≤ 13) || (28 ≤ c.toNat && c.toNat ≤ 31) ||
    c.toNat == 32 || c.toNat == 133 || c.toNat == 160 || c.toNat == 5760 ||
    (8192 ≤ c.toNat && c.toNat ≤ 8202) || c.toNat == 8232 ||
    c.toNat == 8233 || c.toNat == 8239 || c.toNat == 8287 ||
    c.toNat == 12288

/-- Python `str.strip()`: remove whitespace from both ends
(`translator.py` line 87 uses `text.strip()`). -/
def pyStrip (s : List Char) : List Char :=
  ((s.dropWhile pyIsSpace).reverse.dropWhile pyIsSpace).reverse

/-- The guard `not text or text.strip() == ""` of `translate_text`
(`translator.py` line 87). -/
def isBlankText (s : List Char) : Bool :=
  s.isEmpty || (pyStrip s).isEmpty

/-- The truncation step of `translate_text` (`translator.py` lines 100-101):
`if len(text) > 500: text = text[:500]`. -/
def truncateForSubmission (s : List Char) : List Char :=
  if 500 < s.length then s.take 500 else s

/-- The two external Marian models held by `Translator.__init__`
(`translator.py` lines 60-65), abstracted as total string functions
(tokenization, generation and decoding are opaque external collaborators). -/
structure TranslationModels where
  en_to_hi : List Char → List Char
  hi_to_en : List Char → List Char

/-- The string `f"[Translation error: {e}]"` produced by the `except` branch of
`translate_text` (`translator.py` line 113) when the `ValueError` of line 97
(`Unsupported language pair: {src}→{tgt}`) is caught. -/
def unsupportedPairMessage (src tgt : List Char) : List Char :=
  "[Translation error: Unsupported language pair: ".toList ++
    src ++ [ '→' ] ++ tgt ++ [ ']' ]

/-- `Translator.translate_text` (`translator.py` lines 76-113): blank input
returns `""` before any model work; the model is selected from the language
pair (an unsupported pair raises `ValueError`, caught by the `except` and
returned as an error-tagged string); text longer than 500 characters is
truncated before submission. -/
def translate_text (m : TranslationModels) (text src tgt : List Char) : List Char :=
  if isBlankText text then []
  else if src = [ 'e', 'n' ] ∧ tgt = [ 'h', 'i' ] then
    m.en_to_hi (truncateForSubmission text)
  else if src = [ 'h', 'i' ] ∧ tgt = [ 'e', 'n' ] then
    m.hi_to_en (truncateForSubmission text)
  else unsupportedPairMessage src tgt

/-! ## Calibration (`calibrate_audio`, `speech_recognizer.py` lines 75-140) -/

/-- Mean frame energy `avg_noise = np.mean(noise_levels)`
(`speech_recognizer.py` line 117). -/
def ambientLevel (energies : List ℚ) : ℚ :=
  energies.sum / (energies.length : ℚ)

/-- `speech_threshold = avg_noise + std_noise * 2.0` followed by
`max(speech_threshold, 300)` (`speech_recognizer.py` lines 121-122).
The standard deviation is abstracted as a parameter (its square root is the
only non-rational operation of the calibration). -/
def speechThreshold (avg_noise std_noise : ℚ) : ℚ :=
  max (avg_noise + std_noise * 2) 300

/-- One step of the noise-profile accumulation of `calibrate_audio`
(`speech_recognizer.py` lines 110-114): the first frame initializes the
profile to `np.abs(audio_array)`; afterwards
`noise_profile = (noise_profile + np.abs(audio_array)) / 2`. -/
def noiseProfileUpdate (p : Option (List ℚ)) (frame : List ℚ) : Option (List ℚ) :=
  match p with
  | none => some (frame.map (fun x => |x|))
  | some q => some (List.zipWith (fun pi xi => (pi + |xi|) / 2) q frame)

/-- The noise profile after folding all calibration frames
(`speech_recognizer.py` lines 103-114, starting from `noise_profile = None`). -/
def calibNoiseProfile (frames : List (List ℚ)) : Option (List ℚ) :=
  frames.foldl noiseProfileUpdate none

/-- Modelled from the spec's words (for comparison with `calibNoiseProfile`):
the running arithmetic mean of `abs(sample)` across all calibration frames,
aligned by sample index. -/
def specRunningMeanProfile (frames : List (List ℚ)) : Option (List ℚ) :=
  match frames with
  | [] => none
  | f :: fs =>
      some ((((fs.map (fun g => g.map (fun x => |x|))).foldl
        (List.zipWith (· + ·)) (f.map (fun x => |x|)))).map
          (fun t => t / ((f :: fs).length : ℚ)))

/-- Scalar projection of the profile recursion: the value a single sample
position takes after `calibrate_audio` folds frames `x :: xs`
(every frame has the same fixed size 4096, so the elementwise NumPy
update acts independently on each position). -/
def noiseProfileScalar (x : ℚ) (xs : List ℚ) : ℚ :=
  xs.foldl (fun p y => (p + |y|) / 2) |x|

/-- Closed form of the halving recursion: the weight pattern
`|y1| + 2|y2| + 4|y3| + ...` accumulated over later frames. -/
def expWeightSum : List ℚ → ℚ
  | [] => 0
  | y :: ys => |y| + 2 * expWeightSum ys

/-! ## Claim C7 -/

/-- C7: for every calibration window (any sequence of frame energies, with any
noise standard deviation), the computed speech threshold equals
`max(ambient_level + 2·noise_std, 300)` and is therefore at least the fixed
floor 300. -/
theorem speech_threshold_floor (energies : List ℚ) (std_noise : ℚ) :
    speechThreshold (ambientLevel energies) std_noise =
      max (ambientLevel energies + 2 * std_noise) 300 ∧
    300 ≤ speechThreshold (ambientLevel energies) std_noise := by
  constructor
  · unfold speechThreshold
    rw [mul_comm std_noise 2]
  · exact le_max_right _ _

/-! ## Claim C10 -/

/-- C10: for every input text that is empty or consists only of whitespace,
`translate_text` returns the empty string, for every pair of language
arguments (supported or not) and every translation model — the model is never
consulted (the result does not depend on `m`). -/
theorem blank_text_translates_to_empty (m : TranslationModels)
    (text src tgt : List Char) (h : isBlankText text = true) :
    translate_text m text src tgt = [] := by
  simp [translate_text, h]

/-- Witness for `blank_text_translates_to_empty` at a concrete whitespace-only
input and an unsupported language pair. -/
theorem blank_text_translates_to_empty_witness :
    isBlankText [ ' ', '\t' ] = true ∧
    translate_text ⟨fun _ => [ 'x' ], fun _ => [ 'y' ]⟩
      [ ' ', '\t' ] [ 'e', 'n' ] [ 'f', 'r' ] = [] :=
  ⟨by decide, blank_text_translates_to_empty _ _ _ _ (by decide)⟩

/-! ## Audio preprocessing (`process_audio`, `speech_recognizer.py` lines 151-175) -/

/-- `spectral_subtraction` (`speech_recognizer.py` lines 142-149):
`np.maximum(audio_array - noise_estimate * 0.5, 0)`, elementwise. -/
def spectral_subtraction (audio noise : List ℚ) : List ℚ :=
  List.zipWith (fun a n => max (a - n * (1 / 2)) 0) audio noise

/-- The guard `hasattr(self.noise_level, 'noise_profile')` of
`process_audio` (`speech_recognizer.py` line 161): `self.noise_level` is the
plain `dict` returned by `calibrate_audio` (line 132), and a Python `dict`
does not expose its keys as attributes, so `hasattr` is always `False`. -/
def noiseLevelDictHasNoiseProfileAttr : Bool := false

/-- `np.abs(l).max()` (`speech_recognizer.py` lines 165-166); the frames the
code passes in are non-empty (4096 samples), for which the `0` base case of
this fold is never the result. -/
def npAbsMax : List ℚ → ℚ
  | [] => 0
  | x :: xs => max |x| (npAbsMax xs)

/-- Normalization step of `process_audio` (`speech_recognizer.py`
lines 164-169): when the peak is positive, scale by
`min(32767 / peak, 3.0)`; otherwise pass the signal through unchanged. -/
def normalizeAudio (filtered : List ℚ) : List ℚ :=
  if 0 < npAbsMax filtered then
    filtered.map (fun x => x * min (32767 / npAbsMax filtered) 3)
  else filtered

/-- Python `int(...)` / C float-to-int conversion: truncation toward zero. -/
def pyTrunc (q : ℚ) : Int := if 0 ≤ q then ⌊q⌋ else ⌈q⌉

/-- Wrap an integer into the `int16` range by taking it modulo `2^16`
(what a NumPy `np.int16` cast does to an out-of-range value). -/
def wrap16 (n : Int) : Int := (n + 32768) % 65536 - 32768

/-- `np.int16(x)` for a float `x` (`speech_recognizer.py` line 172):
truncate toward zero, then reduce modulo `2^16` into `[-32768, 32767]`. -/
def npInt16 (x : ℚ) : Int := wrap16 (pyTrunc x)

/-- `process_audio` after the fixed low-pass filter (`speech_recognizer.py`
lines 160-175), operating on the filtered signal: the (dead, see
`noiseLevelDictHasNoiseProfileAttr`) spectral-subtraction guard of line 161,
then normalization, then re-quantization to `int16`. -/
def processAudioFromFiltered (noise_profile : Option (List ℚ))
    (filtered : List ℚ) : List Int :=
  (normalizeAudio
    (if noiseLevelDictHasNoiseProfileAttr && noise_profile.isSome then
      spectral_subtraction filtered (noise_profile.getD [])
    else filtered)).map npInt16

/-- Modelled from the spec's words (for comparison with
`processAudioFromFiltered`): apply the noise subtraction whenever the
calibrated profile contains a non-null `noise_profile`, then normalize and
re-quantize. -/
def specProcessAudioFromFiltered (noise_profile : Option (List ℚ))
    (filtered : List ℚ) : List Int :=
  (normalizeAudio
    (match noise_profile with
     | some np => spectral_subtraction filtered np
     | none => filtered)).map npInt16

/-! ## Claim C1 -/

/-- C1: the spectral subtraction of `process_audio` is dead code.  The guard
`hasattr(self.noise_level, 'noise_profile')` is evaluated on a `dict` and is
always false, so the subtraction is never applied even when the calibrated
profile holds a non-null `noise_profile`: the output on the filtered frame
`[10]` with profile `[4]` is `[30]` (no subtraction before normalization),
while the behaviour the spec describes would produce `[24]`; in general the
output never depends on the profile. -/
theorem spectral_subtraction_dead_code :
    processAudioFromFiltered (some [4]) [10] = [30] ∧
    specProcessAudioFromFiltered (some [4]) [10] = [24] ∧
    ∀ noise_profile filtered,
      processAudioFromFiltered noise_profile filtered =
        processAudioFromFiltered none filtered := by
  refine ⟨by decide, by decide, fun noise_profile filtered => rfl⟩

/-! ## Claim C8 -/

lemma abs_le_npAbsMax {l : List ℚ} {x : ℚ} (hx : x ∈ l) : |x| ≤ npAbsMax l := by
  induction l with
  | nil => cases hx
  | cons y ys ih =>
      rcases List.mem_cons.mp hx with rfl | hmem
      · exact le_max_left _ _
      · exact le_trans (ih hmem) (le_max_right _ _)

lemma mem_normalizeAudio_abs_le {l : List ℚ} {x : ℚ}
    (hx : x ∈ normalizeAudio l) : |x| ≤ 32767 := by
  unfold normalizeAudio at hx
  split_ifs at hx with hpeak
  · obtain ⟨y, hy, rfl⟩ := List.mem_map.mp hx
    have hm0 : (0 : ℚ) ≤ min (32767 / npAbsMax l) 3 :=
      le_min (le_of_lt (div_pos (by norm_num) hpeak)) (by norm_num)
    calc |y * min (32767 / npAbsMax l) 3|
        = |y| * min (32767 / npAbsMax l) 3 := by
          rw [abs_mul, abs_of_nonneg hm0]
      _ ≤ npAbsMax l * (32767 / npAbsMax l) :=
          mul_le_mul (abs_le_npAbsMax hy) (min_le_left _ _) hm0
            (le_trans (abs_nonneg y) (abs_le_npAbsMax hy))
      _ = 32767 := by
          rw [mul_comm, div_mul_cancel₀ _ (ne_of_gt hpeak)]
  · have h0 : npAbsMax l ≤ 0 := not_lt.mp hpeak
    exact le_trans (le_trans (abs_le_npAbsMax hx) h0) (by norm_num)

lemma pyTrunc_bounds {x : ℚ} (h : |x| ≤ 32767) :
    -32767 ≤ pyTrunc x ∧ pyTrunc x ≤ 32767 := by
  obtain ⟨hlo, hhi⟩ := abs_le.mp h
  unfold pyTrunc
  split_ifs with hx
  · constructor
    · exact le_trans (by norm_num) (Int.floor_nonneg.mpr hx)
    · calc ⌊x⌋ ≤ ⌊(32767 : ℚ)⌋ := Int.floor_le_floor hhi
        _ = 32767 := by norm_num
  · have hcast_lo : ⌈(-32767 : ℚ)⌉ = -32767 := by
      rw [show ((-32767 : ℚ)) = ((-32767 : ℤ) : ℚ) by norm_num, Int.ceil_intCast]
    have hcast_hi : ⌈(32767 : ℚ)⌉ = 32767 := by
      rw [show ((32767 : ℚ)) = ((32767 : ℤ) : ℚ) by norm_num, Int.ceil_intCast]
    have hlo2 : ⌈(-32767 : ℚ)⌉ ≤ ⌈x⌉ := Int.ceil_le_ceil hlo
    have hhi2 : ⌈x⌉ ≤ ⌈(32767 : ℚ)⌉ := Int.ceil_le_ceil hhi
    omega

lemma wrap16_eq_self {n : Int} (h1 : -32768 ≤ n) (h2 : n ≤ 32767) :
    wrap16 n = n := by
  unfold wrap16
  rw [Int.emod_eq_of_lt (by omega) (by omega)]
  omega

/-- C8: for every filtered frame (and any noise profile), every sample of the
re-quantized output of `process_audio` lies in `[-32768, 32767]`, and the
`np.int16` conversion never wraps: no value reaching the cast exceeds the
`int16` range, so the modular reduction is the identity on every normalized
sample. -/
theorem processed_audio_in_int16_range (noise_profile : Option (List ℚ))
    (filtered : List ℚ) :
    (∀ y ∈ processAudioFromFiltered noise_profile filtered,
        -32768 ≤ y ∧ y ≤ 32767) ∧
    (∀ x ∈ normalizeAudio filtered, wrap16 (pyTrunc x) = pyTrunc x) := by
  constructor
  · intro y hy
    have hrw : processAudioFromFiltered noise_profile filtered =
        (normalizeAudio filtered).map npInt16 := rfl
    rw [hrw] at hy
    obtain ⟨x, hx, rfl⟩ := List.mem_map.mp hy
    obtain ⟨hlo, hhi⟩ := pyTrunc_bounds (mem_normalizeAudio_abs_le hx)
    have hid : npInt16 x = pyTrunc x := wrap16_eq_self (by omega) hhi
    rw [hid]
    exact ⟨by omega, hhi⟩
  · intro x hx
    obtain ⟨hlo, hhi⟩ := pyTrunc_bounds (mem_normalizeAudio_abs_le hx)
    exact wrap16_eq_self (by omega) hhi

/-- Witness for `processed_audio_in_int16_range`: a frame whose peak exceeds
the `int16` ceiling is scaled back onto the boundary value `-32767` with no
wraparound. -/
theorem processed_audio_in_int16_range_witness :
    ((-32767 : Int) ∈ processAudioFromFiltered none [5, -100000] ∧
      -32768 ≤ (-32767 : Int) ∧ (-32767 : Int) ≤ 32767) ∧
    ((-32767 : ℚ) ∈ normalizeAudio [5, -100000] ∧
      wrap16 (pyTrunc (-32767 : ℚ)) = pyTrunc (-32767 : ℚ)) :=
  ⟨⟨by decide, ((processed_audio_in_int16_range none [5, -100000]).1
      (-32767) (by decide))⟩,
   ⟨by decide, ((processed_audio_in_int16_range none [5, -100000]).2
      (-32767) (by decide))⟩⟩

/-! ## Voice-activity detection (`recognize_from_mic`, `speech_recognizer.py`
lines 177-264) -/

/-- The per-frame VAD variables of `recognize_from_mic`
(`speech_recognizer.py` lines 188-197). -/
structure VadState where
  history : List ℚ
  is_speaking : Bool
  silence_frames : Nat
  speech_frames : Nat
  adaptive_threshold : ℚ
deriving Repr, DecidableEq

/-- `collections.deque(maxlen=10).append` (`speech_recognizer.py` lines 188,
213): appends on the right, evicting the oldest element once at capacity. -/
def dequeAppend (cap : Nat) (xs : List ℚ) (x : ℚ) : List ℚ :=
  if xs.length < cap then xs ++ [x] else xs.drop 1 ++ [x]

/-- `rolling_avg = sum(audio_level_history) / len(audio_level_history)`
(`speech_recognizer.py` line 216). -/
def rollingAvg (hist : List ℚ) : ℚ := hist.sum / (hist.length : ℚ)

/-- The adaptive threshold used to classify the current frame
(`speech_recognizer.py` lines 219-224): while not speaking it is recomputed as
`max(ambient_level + noise_std * 2.0, rolling_avg * 1.2)`; while speaking the
stored value is kept. -/
def vadThresholdNow (ambient noise_std : ℚ) (s : VadState) (avg : ℚ) : ℚ :=
  if s.is_speaking then s.adaptive_threshold
  else max (ambient + noise_std * 2) (avg * (6 / 5))

/-- The classification `current_level > adaptive_threshold` of the current
frame (`speech_recognizer.py` line 227), after the history append and the
threshold update. -/
def vadAbove (ambient noise_std : ℚ) (s : VadState) (e : ℚ) : Bool :=
  decide (vadThresholdNow ambient noise_std s
    (rollingAvg (dequeAppend 10 s.history e)) < e)

/-- The dynamic silence limit (`speech_recognizer.py` lines 238-239):
`silence_limit = max(5, int((rolling_avg / ambient_level) * 10))` capped by
`min(silence_limit, 15)`.  When `ambient_level` is zero the Python division
raises `ZeroDivisionError`, modelled as `none`. -/
def silenceLimit (avg ambient : ℚ) : Option Int :=
  if ambient = 0 then none
  else some (min (max 5 (pyTrunc (avg / ambient * 10))) 15)

/-- One frame of the VAD state machine (`speech_recognizer.py` lines 211-243):
append the raw energy to the rolling history, update the adaptive threshold
(only while not speaking), then either count a speech frame (entering
`Speaking` once more than 2 speech frames are counted) or count a silence
frame (leaving `Speaking` once the dynamic silence limit is exceeded).
`none` models the `ZeroDivisionError` of the silence branch when
`ambient_level` is zero. -/
def vadStep (ambient noise_std : ℚ) (s : VadState) (e : ℚ) : Option VadState :=
  if vadAbove ambient noise_std s e then
    some { history := dequeAppend 10 s.history e,
           is_speaking := s.is_speaking || decide (2 < s.speech_frames + 1),
           silence_frames := 0,
           speech_frames := s.speech_frames + 1,
           adaptive_threshold := vadThresholdNow ambient noise_std s
             (rollingAvg (dequeAppend 10 s.history e)) }
  else
    match silenceLimit (rollingAvg (dequeAppend 10 s.history e)) ambient with
    | none => none
    | some lim =>
        some { history := dequeAppend 10 s.history e,
               is_speaking := s.is_speaking &&
                 !decide (lim < (s.silence_frames : Int) + 1),
               silence_frames := s.silence_frames + 1,
               speech_frames := s.speech_frames,
               adaptive_threshold := vadThresholdNow ambient noise_std s
                 (rollingAvg (dequeAppend 10 s.history e)) }

/-- The VAD variables as initialized before the capture loop
(`speech_recognizer.py` lines 188-197): the history is seeded with 10 copies
of the calibrated ambient level, the state is `Silence` with zeroed counters,
and the adaptive threshold starts at the calibrated speech threshold. -/
def vadInit (ambient speech_thr : ℚ) : VadState :=
  { history := List.replicate 10 ambient,
    is_speaking := false,
    silence_frames := 0,
    speech_frames := 0,
    adaptive_threshold := speech_thr }

/-- Run the VAD over a sequence of frame energies; `none` models an uncaught
`ZeroDivisionError` aborting the loop. -/
def runVad (ambient noise_std : ℚ) (s : VadState) (es : List ℚ) :
    Option VadState :=
  List.foldlM (vadStep ambient noise_std) s es

/-- Every frame of the list is classified above-threshold at its step in the
run starting from `s`. -/
def allAboveRun (ambient noise_std : ℚ) (s : VadState) : List ℚ → Bool
  | [] => true
  | e :: es =>
      vadAbove ambient noise_std s e &&
        (vadStep ambient noise_std s e).elim false
          (fun s2 => allAboveRun ambient noise_std s2 es)

/-- The rolling-energy history after a sequence of frame energies, as the
capture loop maintains it (`speech_recognizer.py` lines 188-190 and 213):
seeded with 10 copies of the ambient level, then one bounded append per
frame. -/
def historyAfter (ambient : ℚ) (es : List ℚ) : List ℚ :=
  es.foldl (dequeAppend 10) (List.replicate 10 ambient)

/-! ## Claim C3 -/

/-- C3: the silence-limit computation is not protected against a zero ambient
level.  A calibration over all-zero frames yields `ambient_level = 0` and
`noise_std = 0` (speech threshold 300); the very first captured frame with
energy `0` is classified below threshold and the silence branch divides
`rolling_avg` by the zero ambient level — a `ZeroDivisionError`, not a total
update (no positive floor is substituted anywhere). -/
theorem vad_step_zero_ambient_div_error :
    vadStep 0 0 (vadInit 0 (speechThreshold 0 0)) 0 = none ∧
    silenceLimit (rollingAvg (dequeAppend 10
      (vadInit 0 (speechThreshold 0 0)).history 0)) 0 = none := by
  constructor
  · decide
  · decide

/-! ## Claim C5 -/

lemma dequeAppend_length_of_len10 {xs : List ℚ} (h : xs.length = 10) (x : ℚ) :
    (dequeAppend 10 xs x).length = 10 := by
  unfold dequeAppend
  rw [if_neg (by omega)]
  simp [List.length_append, List.length_drop, h]

lemma foldl_dequeAppend_eq_drop :
    ∀ (es : List ℚ) (xs : List ℚ), xs.length = 10 →
      es.foldl (dequeAppend 10) xs = (xs ++ es).drop es.length := by
  intro es
  induction es with
  | nil => intro xs _; simp
  | cons e es ih =>
      intro xs hxs
      rcases xs with _ | ⟨h, t⟩
      · simp at hxs
      · have hstep : dequeAppend 10 (h :: t) e = t ++ [e] := by
          unfold dequeAppend
          rw [hxs]
          simp
        have hlen : (dequeAppend 10 (h :: t) e).length = 10 :=
          dequeAppend_length_of_len10 hxs e
        calc (e :: es).foldl (dequeAppend 10) (h :: t)
            = es.foldl (dequeAppend 10) (dequeAppend 10 (h :: t) e) := rfl
          _ = ((dequeAppend 10 (h :: t) e) ++ es).drop es.length := ih _ hlen
          _ = ((t ++ [e]) ++ es).drop es.length := by rw [hstep]
          _ = (t ++ e :: es).drop es.length := by
              rw [List.append_assoc, List.singleton_append]
          _ = ((h :: t) ++ e :: es).drop (e :: es).length := by
              simp [List.drop_succ_cons]

lemma vadStep_history {ambient noise_std : ℚ} {s s2 : VadState} {e : ℚ}
    (h : vadStep ambient noise_std s e = some s2) :
    s2.history = dequeAppend 10 s.history e := by
  unfold vadStep at h
  split_ifs at h with hab
  · exact (Option.some.inj h).symm ▸ rfl
  · rcases hsl : silenceLimit (rollingAvg (dequeAppend 10 s.history e)) ambient
      with _ | lim
    · rw [hsl] at h; cases h
    · rw [hsl] at h
      exact (Option.some.inj h).symm ▸ rfl

lemma runVad_history {ambient noise_std : ℚ} :
    ∀ (es : List ℚ) (s st : VadState),
      runVad ambient noise_std s es = some st →
      st.history = es.foldl (dequeAppend 10) s.history := by
  intro es
  induction es with
  | nil =>
      intro s st h
      cases Option.some.inj h
      rfl
  | cons e es ih =>
      intro s st h
      rcases hstep : vadStep ambient noise_std s e with _ | s1
      · rw [runVad, List.foldlM_cons, hstep] at h
        cases h
      · rw [runVad, List.foldlM_cons, hstep] at h
        have := ih s1 st h
        rw [this, List.foldl_cons, vadStep_history hstep]

/-- C5 counterexample: after a single captured frame of energy 42 (ambient
level 100), the history holds nine seeded copies of the ambient level
followed by 42 — not "exactly the energies of the most recent frames", which
would be `[42]`. -/
theorem rolling_history_seeded_counterexample :
    historyAfter 100 [42] = List.replicate 9 100 ++ [42] ∧
    historyAfter 100 [42] ≠ [42] := by
  constructor
  · decide
  · decide

/-- C5 (amended): the rolling-energy history always has length exactly 10
(hence never exceeds 10); it equals the last 10 entries of the ambient seeds
followed by the frame energies, so once at least 10 frames have arrived its
contents are exactly the 10 most recent energies in arrival order (oldest
evicted on overflow); before that the oldest slots still hold calibration
seeds.  The history component of any successful VAD run is exactly this
value. -/
theorem rolling_history_capacity (ambient : ℚ) (es : List ℚ) :
    (historyAfter ambient es).length = 10 ∧
    historyAfter ambient es = (List.replicate 10 ambient ++ es).drop es.length ∧
    (10 ≤ es.length → historyAfter ambient es = es.drop (es.length - 10)) ∧
    (∀ noise_std speech_thr,
      (runVad ambient noise_std (vadInit ambient speech_thr) es).map
          VadState.history =
        (runVad ambient noise_std (vadInit ambient speech_thr) es).map
          (fun _ => historyAfter ambient es)) := by
  have hdrop : historyAfter ambient es =
      (List.replicate 10 ambient ++ es).drop es.length :=
    foldl_dequeAppend_eq_drop es _ (List.length_replicate 10 ambient)
  refine ⟨?_, hdrop, ?_, ?_⟩
  · rw [hdrop, List.length_drop, List.length_append, List.length_replicate]
    omega
  · intro hlen
    rw [hdrop]
    have h1 : (List.replicate 10 ambient ++ es).drop 10 = es := by
      simp
    calc (List.replicate 10 ambient ++ es).drop es.length
        = ((List.replicate 10 ambient ++ es).drop 10).drop (es.length - 10) := by
          rw [List.drop_drop]
          congr 1
          omega
      _ = es.drop (es.length - 10) := by rw [h1]
  · intro noise_std speech_thr
    rcases hrun : runVad ambient noise_std (vadInit ambient speech_thr) es
      with _ | st
    · rfl
    · have h2 := runVad_history es _ st hrun
      simp only [Option.map_some']
      rw [h2]
      rfl

/-- Witness for `rolling_history_capacity`: twelve frames of energy 5 leave a
history of exactly the last ten of them. -/
theorem rolling_history_capacity_witness :
    10 ≤ (List.replicate 12 (5 : ℚ)).length ∧
    historyAfter 0 (List.replicate 12 5) =
      (List.replicate 12 (5 : ℚ)).drop ((List.replicate 12 (5 : ℚ)).length - 10) :=
  ⟨by decide,
   (rolling_history_capacity 0 (List.replicate 12 5)).2.2.1 (by decide)⟩

/-! ## Claim C2 -/

/-- C2 counterexample: with ambient level 100 and noise std 20, the energy
sequence `[400, 400, 50]` leaves the VAD in `Silence` (two above-threshold
frames, then one below-threshold frame), yet the single isolated
above-threshold frame `400` that follows flips the state to `Speaking`: the
`speech_frames` counter is never reset by below-threshold frames, so the
current frame is "preceded by two consecutive above-threshold frames since
the last below-threshold frame" is not required for the transition. -/
theorem vad_isolated_spike_flips_state :
    (runVad 100 20 (vadInit 100 (speechThreshold 100 20))
        [400, 400, 50]).map VadState.is_speaking = some false ∧
    (runVad 100 20 (vadInit 100 (speechThreshold 100 20))
        [400, 400]).map (fun s => vadAbove 100 20 s 50) = some false ∧
    (runVad 100 20 (vadInit 100 (speechThreshold 100 20))
        [400, 400, 50]).map (fun s => vadAbove 100 20 s 400) = some true ∧
    (runVad 100 20 (vadInit 100 (speechThreshold 100 20))
        [400, 400, 50, 400]).map VadState.is_speaking = some true := by
  refine ⟨by decide, by decide, by decide, by decide⟩

/-- C2 (amended): from `Silence`, a step flips the state to `Speaking` exactly
when the current frame is classified above the adaptive threshold and at
least two above-threshold frames have already been counted anywhere earlier
in the session — `speech_frames` is cumulative (never reset by
below-threshold frames, as the monotonicity conjunct shows), so the two
earlier frames need not be consecutive with the current one. -/
theorem vad_silence_to_speaking_iff (ambient noise_std : ℚ) (s : VadState)
    (e : ℚ) (s2 : VadState)
    (hstep : vadStep ambient noise_std s e = some s2)
    (hsil : s.is_speaking = false) :
    (s2.is_speaking = true ↔
      (vadAbove ambient noise_std s e = true ∧ 2 ≤ s.speech_frames)) ∧
    s.speech_frames ≤ s2.speech_frames := by
  unfold vadStep at hstep
  cases hab : vadAbove ambient noise_std s e with
  | true =>
      rw [hab] at hstep
      simp only [if_true] at hstep
      cases Option.some.inj hstep
      constructor
      · simp [hsil, decide_eq_true_eq]
        omega
      · simp
  | false =>
      rw [hab] at hstep
      simp only [Bool.false_eq_true, if_false] at hstep
      rcases hsl : silenceLimit (rollingAvg (dequeAppend 10 s.history e)) ambient
        with _ | lim
      · rw [hsl] at hstep
        cases hstep
      · rw [hsl] at hstep
        cases Option.some.inj hstep
        constructor
        · simp [hsil]
        · simp

/-- Witness for `vad_silence_to_speaking_iff`: a `Silence` state that has
already counted 2 cumulative speech frames flips to `Speaking` on one more
above-threshold frame. -/
theorem vad_silence_to_speaking_iff_witness :
    vadStep 100 20
      { history := List.replicate 10 100, is_speaking := false,
        silence_frames := 0, speech_frames := 2, adaptive_threshold := 300 }
      500 =
      some { history := List.replicate 9 100 ++ [500], is_speaking := true,
             silence_frames := 0, speech_frames := 3,
             adaptive_threshold := 168 } ∧
    ({ history := List.replicate 10 100, is_speaking := false,
       silence_frames := 0, speech_frames := 2,
       adaptive_threshold := 300 } : VadState).is_speaking = false ∧
    ((({ history := List.replicate 9 100 ++ [500], is_speaking := true,
         silence_frames := 0, speech_frames := 3,
         adaptive_threshold := 168 } : VadState).is_speaking = true ↔
      (vadAbove 100 20
          { history := List.replicate 10 100, is_speaking := false,
            silence_frames := 0, speech_frames := 2,
            adaptive_threshold := 300 } 500 = true ∧
        2 ≤ ({ history := List.replicate 10 100, is_speaking := false,
               silence_frames := 0, speech_frames := 2,
               adaptive_threshold := 300 } : VadState).speech_frames)) ∧
      ({ history := List.replicate 10 100, is_speaking := false,
         silence_frames := 0, speech_frames := 2,
         adaptive_threshold := 300 } : VadState).speech_frames ≤
        ({ history := List.replicate 9 100 ++ [500], is_speaking := true,
           silence_frames := 0, speech_frames := 3,
           adaptive_threshold := 168 } : VadState).speech_frames) :=
  ⟨by decide, by decide,
   vad_silence_to_speaking_iff 100 20 _ 500 _ (by decide) (by decide)⟩

/-! ## Claim C4 -/

lemma vadStep_of_above {ambient noise_std : ℚ} {s : VadState} {e : ℚ}
    (h : vadAbove ambient noise_std s e = true) :
    vadStep ambient noise_std s e =
      some { history := dequeAppend 10 s.history e,
             is_speaking := s.is_speaking || decide (2 < s.speech_frames + 1),
             silence_frames := 0,
             speech_frames := s.speech_frames + 1,
             adaptive_threshold := vadThresholdNow ambient noise_std s
               (rollingAvg (dequeAppend 10 s.history e)) } := by
  unfold vadStep
  rw [h]
  simp

lemma allAbove_run_cons :
    ∀ (es : List ℚ) (e : ℚ) (ambient noise_std : ℚ) (s : VadState),
      allAboveRun ambient noise_std s (e :: es) = true →
      ∃ st, runVad ambient noise_std s (e :: es) = some st ∧
        st.speech_frames = s.speech_frames + es.length + 1 ∧
        st.is_speaking =
          (s.is_speaking || decide (2 < s.speech_frames + es.length + 1)) := by
  intro es
  induction es with
  | nil =>
      intro e ambient noise_std s hall
      simp only [allAboveRun, Bool.and_eq_true] at hall
      obtain ⟨h1, _⟩ := hall
      refine ⟨{ history := dequeAppend 10 s.history e,
                is_speaking := s.is_speaking || decide (2 < s.speech_frames + 1),
                silence_frames := 0,
                speech_frames := s.speech_frames + 1,
                adaptive_threshold := vadThresholdNow ambient noise_std s
                  (rollingAvg (dequeAppend 10 s.history e)) }, ?_, ?_, ?_⟩
      · show List.foldlM (vadStep ambient noise_std) s [e] = _
        rw [List.foldlM_cons, vadStep_of_above h1]
        rfl
      · simp
      · simp
  | cons e2 es ih =>
      intro e ambient noise_std s hall
      simp only [allAboveRun, Bool.and_eq_true] at hall
      obtain ⟨h1, hrest⟩ := hall
      rw [vadStep_of_above h1] at hrest
      simp only [Option.elim_some] at hrest
      have hrest2 : allAboveRun ambient noise_std
          { history := dequeAppend 10 s.history e,
            is_speaking := s.is_speaking || decide (2 < s.speech_frames + 1),
            silence_frames := 0,
            speech_frames := s.speech_frames + 1,
            adaptive_threshold := vadThresholdNow ambient noise_std s
              (rollingAvg (dequeAppend 10 s.history e)) } (e2 :: es) = true := by
        simpa [allAboveRun] using hrest
      obtain ⟨st, hrun, hcnt, hspeak⟩ := ih e2 ambient noise_std _ hrest2
      refine ⟨st, ?_, ?_, ?_⟩
      · show List.foldlM (vadStep ambient noise_std) s (e :: e2 :: es) = some st
        rw [List.foldlM_cons, vadStep_of_above h1]
        exact hrun
      · rw [hcnt]
        show s.speech_frames + 1 + es.length + 1 =
          s.speech_frames + (es.length + 1) + 1
        omega
      · rw [hspeak]
        show ((s.is_speaking || decide (2 < s.speech_frames + 1)) ||
            decide (2 < s.speech_frames + 1 + es.length + 1)) =
          (s.is_speaking || decide (2 < s.speech_frames + (es.length + 1) + 1))
        have heq : s.speech_frames + 1 + es.length + 1 =
            s.speech_frames + (es.length + 1) + 1 := by omega
        rw [heq, Bool.or_assoc]
        congr 1
        by_cases h2 : 2 < s.speech_frames + 1
        · have h3 : 2 < s.speech_frames + (es.length + 1) + 1 := by omega
          simp [h2, h3]
        · simp [h2]

/-- C4: starting from the initial `Silence` state, any 3 consecutive frames
each classified above the adaptive threshold at its step flip the state to
`Speaking`; concretely, with ambient level 100 and noise std 20 (speech
threshold `max(140, 300) = 300`), the energy sequence `[310, 320, 330]`
leaves the VAD in `Speaking`, and 16 further frames of energy 50 bring it
back to `Silence`. -/
theorem vad_three_above_then_sixteen_silence :
    (∀ ambient noise_std speech_thr e1 e2 e3,
      allAboveRun ambient noise_std (vadInit ambient speech_thr)
        [e1, e2, e3] = true →
      (runVad ambient noise_std (vadInit ambient speech_thr)
        [e1, e2, e3]).map VadState.is_speaking = some true) ∧
    (runVad 100 20 (vadInit 100 (speechThreshold 100 20))
        [310, 320, 330]).map VadState.is_speaking = some true ∧
    (runVad 100 20 (vadInit 100 (speechThreshold 100 20))
        ([310, 320, 330] ++ List.replicate 16 50)).map VadState.is_speaking =
      some false := by
  refine ⟨?_, by decide, by decide⟩
  intro ambient noise_std speech_thr e1 e2 e3 hall
  obtain ⟨st, hrun, hcnt, hspeak⟩ :=
    allAbove_run_cons [e2, e3] e1 ambient noise_std _ hall
  rw [hrun]
  have hs0 : (vadInit ambient speech_thr).speech_frames = 0 := rfl
  have hs1 : (vadInit ambient speech_thr).is_speaking = false := rfl
  rw [hs0, hs1] at hspeak
  simp at hspeak
  rw [Option.map_some']
  rw [hspeak]

/-- Witness for `vad_three_above_then_sixteen_silence`: the concrete scenario
frames `[310, 320, 330]` are all classified above threshold, and the general
conjunct yields the `Speaking` state. -/
theorem vad_three_above_then_sixteen_silence_witness :
    allAboveRun 100 20 (vadInit 100 (speechThreshold 100 20))
      [310, 320, 330] = true ∧
    (runVad 100 20 (vadInit 100 (speechThreshold 100 20))
      [310, 320, 330]).map VadState.is_speaking = some true :=
  ⟨by decide,
   vad_three_above_then_sixteen_silence.1 100 20 (speechThreshold 100 20)
     310 320 330 (by decide)⟩

/-! ## Claim C6 -/

/-- C6 counterexample: over the three single-sample calibration frames
`[4], [0], [0]` the code's profile is `[1]` (the halving recursion
`((4+0)/2+0)/2`), while the running arithmetic mean of `abs(sample)` is
`[4/3]` — the two disagree from the third frame on. -/
theorem noise_profile_not_running_mean :
    calibNoiseProfile [[4], [0], [0]] = some [1] ∧
    specRunningMeanProfile [[4], [0], [0]] = some [4 / 3] ∧
    calibNoiseProfile [[4], [0], [0]] ≠
      specRunningMeanProfile [[4], [0], [0]] := by
  refine ⟨by decide, by decide, by decide⟩

lemma foldl_halving :
    ∀ (xs : List ℚ) (a : ℚ),
      xs.foldl (fun p y => (p + |y|) / 2) a =
        (a + expWeightSum xs) / 2 ^ xs.length := by
  intro xs
  induction xs with
  | nil =>
      intro a
      simp [expWeightSum]
  | cons y ys ih =>
      intro a
      rw [List.foldl_cons, ih ((a + |y|) / 2)]
      show ((a + |y|) / 2 + expWeightSum ys) / 2 ^ ys.length =
        (a + (|y| + 2 * expWeightSum ys)) / 2 ^ (ys.length + 1)
      rw [pow_succ]
      have h2 : (2 : ℚ) ^ ys.length ≠ 0 := by positivity
      field_simp
      ring

lemma calibNoiseProfile_singleton_frames :
    ∀ (xs : List ℚ) (a : ℚ),
      (xs.map (fun v => [v])).foldl noiseProfileUpdate (some [a]) =
        some [xs.foldl (fun p y => (p + |y|) / 2) a] := by
  intro xs
  induction xs with
  | nil => intro a; rfl
  | cons y ys ih =>
      intro a
      rw [List.map_cons, List.foldl_cons, List.foldl_cons]
      have hstep : noiseProfileUpdate (some [a]) [y] = some [(a + |y|) / 2] := rfl
      rw [hstep, ih ((a + |y|) / 2)]

/-- C6 (amended): the per-sample noise profile is not the running arithmetic
mean of `abs(sample)`: `calibrate_audio` folds `p ← (p + |frame|) / 2`, so
over frames `x :: xs` each sample position holds
`(|x| + expWeightSum xs) / 2 ^ |xs|` — an exponentially weighted average in
which the k-th of n frames carries weight `2^(k-2)/2^(n-1)` for `k ≥ 2` (the
first frame weighs like the second), coinciding with the running mean only
for the first two frames. -/
theorem noise_profile_exp_weighted (x : ℚ) (xs : List ℚ) :
    calibNoiseProfile ((x :: xs).map (fun v => [v])) =
      some [noiseProfileScalar x xs] ∧
    noiseProfileScalar x xs = (|x| + expWeightSum xs) / 2 ^ xs.length := by
  constructor
  · rw [calibNoiseProfile, List.map_cons, List.foldl_cons]
    have hfirst : noiseProfileUpdate none [x] = some [|x|] := rfl
    rw [hfirst, calibNoiseProfile_singleton_frames]
    rfl
  · exact foldl_halving xs |x|

/-! ## Claim C9 -/

lemma pyStrip_eq_nil_iff (l : List Char) :
    pyStrip l = [] ↔ ∀ c ∈ l, pyIsSpace c = true := by
  unfold pyStrip
  rw [List.reverse_eq_nil_iff, List.dropWhile_eq_nil_iff]
  constructor
  · intro h c hc
    have hsplit : c ∈ l.takeWhile pyIsSpace ++
        l.dropWhile pyIsSpace := by
      rw [List.takeWhile_append_dropWhile]
      exact hc
    rcases List.mem_append.mp hsplit with h1 | h2
    · exact List.mem_takeWhile_imp h1
    · exact h c (List.mem_reverse.mpr h2)
  · intro h c hc
    exact h c ((List.dropWhile_sublist _).subset (List.mem_reverse.mp hc))

lemma isBlankText_eq_false_of_mem {l : List Char} {c : Char}
    (hc : c ∈ l) (hw : pyIsSpace c = false) : isBlankText l = false := by
  unfold isBlankText
  rw [Bool.or_eq_false_iff]
  rcases l with _ | ⟨a, t⟩
  · cases hc
  · refine ⟨rfl, ?_⟩
    cases hps : pyStrip (a :: t) with
    | nil =>
        have := (pyStrip_eq_nil_iff (a :: t)).mp hps c hc
        rw [this] at hw
        cases hw
    | cons b bs => rfl

set_option maxRecDepth 100000 in
/-- C9 counterexample: two inputs of length 501 agreeing on their first 500
characters (500 spaces) but differing at position 501 translate differently:
the blank-input guard inspects the whole text before truncation, so the
character beyond position 500 decides whether the model is consulted at all. -/
theorem translate_whitespace_boundary_counterexample :
    (List.replicate 500 ' ' ++ [ 'a' ]).take 500 =
      (List.replicate 500 ' ' ++ [ ' ' ]).take 500 ∧
    500 < (List.replicate 500 ' ' ++ [ 'a' ] : List Char).length ∧
    500 < (List.replicate 500 ' ' ++ [ ' ' ] : List Char).length ∧
    translate_text ⟨fun _ => [ 'X' ], fun _ => [ 'X' ]⟩
        (List.replicate 500 ' ' ++ [ 'a' ]) [ 'e', 'n' ] [ 'h', 'i' ] ≠
      translate_text ⟨fun _ => [ 'X' ], fun _ => [ 'X' ]⟩
        (List.replicate 500 ' ' ++ [ ' ' ]) [ 'e', 'n' ] [ 'h', 'i' ] := by
  refine ⟨by decide, by decide, by decide, by decide⟩

/-- C9 (amended): for every input longer than 500 characters whose first 500
characters contain at least one character that Python's `str.strip()` does
not remove (`pyIsSpace` is CPython's full whitespace set), only the
500-character head of the input is submitted to the model, and the result
depends only on those 500 characters: any second input with the same
500-character head (and any continuation) translates identically, for every
model and language pair. -/
theorem translate_truncates_to_first_500 (m : TranslationModels)
    (t1 t2 src tgt : List Char)
    (h1 : 500 < t1.length)
    (h2 : t1.take 500 = t2.take 500)
    (h3 : pyStrip (t1.take 500) ≠ []) :
    truncateForSubmission t1 = t1.take 500 ∧
    translate_text m t1 src tgt = translate_text m t2 src tgt := by
  obtain ⟨c, hcmem, hcw⟩ : ∃ c ∈ t1.take 500, pyIsSpace c = false := by
    by_contra hall
    push_neg at hall
    refine h3 ((pyStrip_eq_nil_iff _).mpr (fun c hc => ?_))
    have hne := hall c hc
    cases hw : pyIsSpace c
    · exact absurd hw hne
    · rfl
  have hc1 : c ∈ t1 := List.mem_of_mem_take hcmem
  have hc2 : c ∈ t2 := List.mem_of_mem_take (h2 ▸ hcmem)
  have hb1 : isBlankText t1 = false := isBlankText_eq_false_of_mem hc1 hcw
  have hb2 : isBlankText t2 = false := isBlankText_eq_false_of_mem hc2 hcw
  have hlen2 : 500 ≤ t2.length := by
    have hcg := congrArg List.length h2
    rw [List.length_take, List.length_take] at hcg
    omega
  have htr1 : truncateForSubmission t1 = t1.take 500 := by
    unfold truncateForSubmission
    rw [if_pos h1]
  have htr2 : truncateForSubmission t2 = t1.take 500 := by
    unfold truncateForSubmission
    by_cases hl : 500 < t2.length
    · rw [if_pos hl, h2]
    · rw [if_neg hl]
      have hteq : t2.length = 500 := by omega
      rw [h2, ← hteq, List.take_length]
  refine ⟨htr1, ?_⟩
  unfold translate_text
  rw [hb1, hb2, htr1, htr2]

set_option maxRecDepth 100000 in
/-- Witness for `translate_truncates_to_first_500`: two inputs of length 501
sharing the non-blank 500-character head translate identically. -/
theorem translate_truncates_to_first_500_witness :
    500 < (List.replicate 500 'a' ++ [ 'b' ] : List Char).length ∧
    (truncateForSubmission (List.replicate 500 'a' ++ [ 'b' ]) =
      (List.replicate 500 'a' ++ [ 'b' ] : List Char).take 500 ∧
    translate_text ⟨fun _ => [], fun _ => []⟩
        (List.replicate 500 'a' ++ [ 'b' ]) [ 'e', 'n' ] [ 'h', 'i' ] =
      translate_text ⟨fun _ => [], fun _ => []⟩
        (List.replicate 500 'a' ++ [ 'c' ]) [ 'e', 'n' ] [ 'h', 'i' ]) :=
  ⟨by decide,
   translate_truncates_to_first_500 _ _ _ _ _ (by decide) (by decide) (by decide)⟩
